import Mathlib

/-!
# Baikal-M clock management unit driver (drivers/clk/baikal-m/clk-baikal.c)

A shallow embedding of the clock operations and of the bring-up routine of the
Baikal-M CMU driver.  Every clock operation is one secure monitor call; the firmware
behind the call gate is a parameter of the model and the calls issued so far are kept
in an explicit trace.

Machine integers are natural numbers.  The registers of a secure monitor call and
unsigned long values are 64 bits wide, the fields of struct baikal_clk_cmu are 32 bits
wide, and the conversions of the C code are written out with an explicit modulus.
-/

namespace Baikal

/-! ## Machine words -/

/-- Number of values of a 32-bit word (uint32_t, unsigned int, u32). -/
def U32_SIZE : Nat := 2 ^ 32

/-- Number of values of a 64-bit word (unsigned long on arm64, a register). -/
def U64_SIZE : Nat := 2 ^ 64

/-- Conversion of an unsigned long to int, as done by a return statement in a function
whose return type is int: the low 32 bits, read in two-complement. -/
def to_int (x : Nat) : Int :=
  if x % U32_SIZE < 2 ^ 31 then ((x % U32_SIZE : Nat) : Int)
  else ((x % U32_SIZE : Nat) : Int) - (U32_SIZE : Int)

/-- Conversion of an unsigned long to long: the same 64 bits, read in two-complement. -/
def to_long (x : Nat) : Int :=
  if x % U64_SIZE < 2 ^ 63 then ((x % U64_SIZE : Nat) : Int)
  else ((x % U64_SIZE : Nat) : Int) - (U64_SIZE : Int)

/-! ## Command codes (clk-baikal.c lines 21 to 32 and 45) -/

def CMU_PLL_SET_RATE : Nat := 0
def CMU_PLL_GET_RATE : Nat := 1
def CMU_PLL_ENABLE : Nat := 2
def CMU_PLL_DISABLE : Nat := 3
def CMU_PLL_ROUND_RATE : Nat := 4
def CMU_PLL_IS_ENABLED : Nat := 5
def CMU_CLK_CH_SET_RATE : Nat := 6
def CMU_CLK_CH_GET_RATE : Nat := 7
def CMU_CLK_CH_ENABLE : Nat := 8
def CMU_CLK_CH_DISABLE : Nat := 9
def CMU_CLK_CH_ROUND_RATE : Nat := 10
def CMU_CLK_CH_IS_ENABLED : Nat := 11

/-- Function identifier of the CMU service in the secure monitor. -/
def BAIKAL_SMC_LCRU_ID : Nat := 0x82000000

/-! ## Data model -/

/-- The struct clk_init_data filled in by bring-up for one clock. -/
structure clk_init_data where
  name : Option String
  parent_names : Option String
  num_parents : Nat
  flags : Nat
deriving DecidableEq

/-- The struct baikal_clk_cmu: one clock unit, a PLL when is_clk_ch is zero and a
channel otherwise.  The field hw_init stands for hw.init. -/
structure baikal_clk_cmu where
  hw_init : Option clk_init_data
  cmu_id : Nat
  parent : Nat
  name : Option String
  is_clk_ch : Nat
deriving DecidableEq

/-- The three integer fields of a unit fit their 32-bit C types. -/
def baikal_clk_cmu.wf (pclk : baikal_clk_cmu) : Prop :=
  pclk.cmu_id < U32_SIZE ∧ pclk.parent < U32_SIZE ∧ pclk.is_clk_ch < U32_SIZE

instance (pclk : baikal_clk_cmu) : Decidable pclk.wf := by
  unfold baikal_clk_cmu.wf; exact inferInstance

/-- One request through the call gate: the eight argument registers.  Register a0 is
the function identifier, a1 the target unit, a2 the command code, a3 the rate argument
and a4 the reference argument. -/
structure smc_call where
  a0 : Nat
  a1 : Nat
  a2 : Nat
  a3 : Nat
  a4 : Nat
  a5 : Nat
  a6 : Nat
  a7 : Nat
deriving DecidableEq

/-- The struct arm_smccc_res: the four result registers of a call. -/
structure arm_smccc_res where
  a0 : Nat
  a1 : Nat
  a2 : Nat
  a3 : Nat
deriving DecidableEq

/-- The firmware behind the call gate.  It is outside the driver: any function from the
calls received earlier and the present call to the result registers. -/
abbrev Firmware := List smc_call → smc_call → arm_smccc_res

/-- The call gate arm_smccc_smc: loads the eight arguments into 64-bit registers, issues
one call, and reads back four 64-bit result registers.  The call is appended to the
trace. -/
def arm_smccc_smc (fw : Firmware) (a0 a1 a2 a3 a4 a5 a6 a7 : Nat) (tr : List smc_call) :
    arm_smccc_res × List smc_call :=
  let c : smc_call :=
    { a0 := a0 % U64_SIZE, a1 := a1 % U64_SIZE, a2 := a2 % U64_SIZE, a3 := a3 % U64_SIZE,
      a4 := a4 % U64_SIZE, a5 := a5 % U64_SIZE, a6 := a6 % U64_SIZE, a7 := a7 % U64_SIZE }
  let r := fw tr c
  ({ a0 := r.a0 % U64_SIZE, a1 := r.a1 % U64_SIZE, a2 := r.a2 % U64_SIZE,
     a3 := r.a3 % U64_SIZE }, tr ++ [c])

/-- A firmware that answers every call with the same word in register a0. -/
def const_fw (r : Nat) : Firmware := fun _ _ => { a0 := r, a1 := 0, a2 := 0, a3 := 0 }

/-! ## The six clock operations (clk-baikal.c lines 47 to 206)

Each operation takes the firmware, the unit and the trace so far, and returns its C
return value together with the extended trace.  The pr_debug lines write to the kernel
log only; the verdict they print about the result word is given separately below. -/

/-- The verdict printed by the pr_debug line of baikal_clk_enable, baikal_clk_disable and
baikal_clk_set_rate (lines 67, 92 and 174): the expression res.a0 ? "error" : "ok" on the
full unsigned long. -/
def debug_verdict_error_ok (res : arm_smccc_res) : String :=
  if res.a0 ≠ 0 then "error" else "ok"

/-- The verdict printed by the pr_debug line of baikal_clk_is_enabled (line 115): the
expression res.a0 ? "true" : "false" on the full unsigned long. -/
def debug_verdict_true_false (res : arm_smccc_res) : String :=
  if res.a0 ≠ 0 then "true" else "false"

/-- The function baikal_clk_enable (lines 47 to 70); the return type is int. -/
def baikal_clk_enable (fw : Firmware) (pclk : baikal_clk_cmu) (tr : List smc_call) :
    Int × List smc_call :=
  let cmd := if pclk.is_clk_ch ≠ 0 then CMU_CLK_CH_ENABLE else CMU_PLL_ENABLE
  let out := arm_smccc_smc fw BAIKAL_SMC_LCRU_ID pclk.cmu_id cmd 0 pclk.parent 0 0 0 tr
  (to_int out.1.a0, out.2)

/-- The function baikal_clk_disable (lines 72 to 93); the return type is void. -/
def baikal_clk_disable (fw : Firmware) (pclk : baikal_clk_cmu) (tr : List smc_call) :
    Unit × List smc_call :=
  let cmd := if pclk.is_clk_ch ≠ 0 then CMU_CLK_CH_DISABLE else CMU_PLL_DISABLE
  let out := arm_smccc_smc fw BAIKAL_SMC_LCRU_ID pclk.cmu_id cmd 0 pclk.parent 0 0 0 tr
  ((), out.2)

/-- The function baikal_clk_is_enabled (lines 95 to 118); the return type is int. -/
def baikal_clk_is_enabled (fw : Firmware) (pclk : baikal_clk_cmu) (tr : List smc_call) :
    Int × List smc_call :=
  let cmd := if pclk.is_clk_ch ≠ 0 then CMU_CLK_CH_IS_ENABLED else CMU_PLL_IS_ENABLED
  let out := arm_smccc_smc fw BAIKAL_SMC_LCRU_ID pclk.cmu_id cmd 0 pclk.parent 0 0 0 tr
  (to_int out.1.a0, out.2)

/-- The function baikal_clk_recalc_rate (lines 120 to 147); the return type is
unsigned long. -/
def baikal_clk_recalc_rate (fw : Firmware) (pclk : baikal_clk_cmu) (parent_rate : Nat)
    (tr : List smc_call) : Nat × List smc_call :=
  let cmd := if pclk.is_clk_ch ≠ 0 then CMU_CLK_CH_GET_RATE else CMU_PLL_GET_RATE
  let parent := if pclk.is_clk_ch ≠ 0 then pclk.parent else parent_rate
  let out := arm_smccc_smc fw BAIKAL_SMC_LCRU_ID pclk.cmu_id cmd 0 parent 0 0 0 tr
  (out.1.a0, out.2)

/-- The function baikal_clk_set_rate (lines 149 to 177); the return type is int. -/
def baikal_clk_set_rate (fw : Firmware) (pclk : baikal_clk_cmu) (rate parent_rate : Nat)
    (tr : List smc_call) : Int × List smc_call :=
  let cmd := if pclk.is_clk_ch ≠ 0 then CMU_CLK_CH_SET_RATE else CMU_PLL_SET_RATE
  let parent := if pclk.is_clk_ch ≠ 0 then pclk.parent else parent_rate
  let out := arm_smccc_smc fw BAIKAL_SMC_LCRU_ID pclk.cmu_id cmd rate parent 0 0 0 tr
  (to_int out.1.a0, out.2)

/-- The function baikal_clk_round_rate (lines 179 to 206); the return type is long.
The argument prate is the value behind the pointer on entry; the second component of
the result is the value behind the pointer on return.  The body reads the pointer in
the PLL branch and never stores through it. -/
def baikal_clk_round_rate (fw : Firmware) (pclk : baikal_clk_cmu) (rate prate : Nat)
    (tr : List smc_call) : (Int × Nat) × List smc_call :=
  let cmd := if pclk.is_clk_ch ≠ 0 then CMU_CLK_CH_ROUND_RATE else CMU_PLL_ROUND_RATE
  let parent := if pclk.is_clk_ch ≠ 0 then pclk.parent else prate
  let out := arm_smccc_smc fw BAIKAL_SMC_LCRU_ID pclk.cmu_id cmd rate parent 0 0 0 tr
  ((to_long out.1.a0, prate), out.2)

/-! ## Bring-up (clk-baikal.c lines 217 to 343)

The kernel services used by bring-up (the allocator, the device tree accessors, the
clock framework and the provider registry) are declared outside this driver.  Their
outcomes are inputs of the model: the record kernel says which allocation and which
registration requests succeed. -/

/-- The errno value ENOMEM. -/
def ENOMEM : Int := 12

/-- The clock flag CLK_IGNORE_UNUSED, bit 3 in the clock framework headers. -/
def CLK_IGNORE_UNUSED : Nat := 8

/-- The device tree node handed to bring-up.  A property that is absent is none. -/
structure device_node where
  clock_output_names : Option String
  clock_frequency : Option Nat
  cmu_id : Option Nat
  parent_name : Option String
  clock_indices : Option (List Nat)
  clock_names : List String

/-- A struct clk pointer as returned by clk_register: a registered clock backed by a
unit, or an error pointer. -/
inductive clk where
  | valid (hw : baikal_clk_cmu)
  | error (errno : Int)
deriving DecidableEq

/-- The kernel test IS_ERR on a clock pointer. -/
def IS_ERR : clk → Bool
  | .valid _ => false
  | .error _ => true

/-- The struct clk_onecell_data: the indexed table published for the channels.  The
field clks is none when its allocation returned a null pointer; a slot of the table is
none while it still holds the null pointer left by kcalloc. -/
structure clk_onecell_data where
  clks : Option (List (Option clk))
  clk_num : Nat
deriving DecidableEq

/-- What of_clk_add_provider was given: a single clock (of_clk_src_simple_get) or an
indexed table (of_clk_src_onecell_get). -/
inductive of_provider where
  | simple (c : clk)
  | onecell (d : clk_onecell_data)
deriving DecidableEq

/-- Outcomes of the kernel services during one bring-up.  Allocation and registration
requests are numbered from zero in the order in which bring-up makes them. -/
structure kernel where
  fw : Firmware
  alloc_ok : Nat → Bool
  clk_register_ok : Nat → Bool
  clkdev_ok : Nat → Bool
  add_provider_rc : Int

/-- What bring-up asked of the clock framework, kept in order: a unit was handed to
clk_register, which returned the given pointer, or the enable operation of a unit was
invoked by clk_prepare_enable. -/
inductive probe_event where
  | registered (hw : baikal_clk_cmu) (c : clk)
  | enabled (hw : baikal_clk_cmu)
deriving DecidableEq

/-- The part of the machine state that bring-up changes.  The field events is a
history: nothing reads it. -/
structure probe_state where
  allocs : Nat
  regs : Nat
  lookups_tried : Nat
  trace : List smc_call
  clkdev : List (Option String × clk)
  provider : Option of_provider
  events : List probe_event

/-- The state before bring-up. -/
def probe_state.init : probe_state :=
  { allocs := 0, regs := 0, lookups_tried := 0, trace := [], clkdev := [], provider := none,
    events := [] }

/-- Memory errors: accesses whose behaviour the C language leaves undefined.  The model
stops at the first one. -/
inductive fault where
  | out_of_bounds (index size : Nat)
  | null_deref
  | bad_pointer
deriving DecidableEq

/-- How bring-up ends: a return statement with its value, or a memory error, each with
the state reached. -/
inductive probe_result where
  | ret (rc : Int) (s : probe_state)
  | crash (f : fault) (s : probe_state)

/-- One request to kzalloc, kmalloc or kcalloc: true when memory was obtained. -/
def kalloc (k : kernel) (s : probe_state) : Bool × probe_state :=
  (k.alloc_ok s.allocs, { s with allocs := s.allocs + 1 })

/-- Modelled from the spec: clk_register belongs to the clock framework, which is not
among the sources.  Registration constructs and stores the unit and hands back its
clock, or fails with an error pointer. -/
def clk_register (k : kernel) (hw : baikal_clk_cmu) (s : probe_state) : clk × probe_state :=
  let c := if k.clk_register_ok s.regs then clk.valid hw else clk.error (-ENOMEM)
  (c, { s with regs := s.regs + 1, events := s.events ++ [probe_event.registered hw c] })

/-- Modelled from the spec: clk_register_clkdev belongs to the clock framework.  It
stores the clock under its name for lookup and returns zero, or returns an error code
and stores nothing; an error pointer is refused. -/
def clk_register_clkdev (k : kernel) (c : clk) (name : Option String) (s : probe_state) :
    Int × probe_state :=
  let s1 := { s with lookups_tried := s.lookups_tried + 1 }
  match c with
  | .error e => (e, s1)
  | .valid _ =>
    if k.clkdev_ok s.lookups_tried then (0, { s1 with clkdev := s1.clkdev ++ [(name, c)] })
    else (-ENOMEM, s1)

/-- Modelled from the spec: clk_prepare_enable belongs to the clock framework.  On a
registered clock it invokes the enable operation of the unit once, through the table
be_clk_pll_ops.  The framework tests its argument for the null pointer only, so an
error pointer is dereferenced, which is a memory error. -/
def clk_prepare_enable (k : kernel) (c : clk) (s : probe_state) :
    Except fault (Int × probe_state) :=
  match c with
  | .error _ => .error fault.bad_pointer
  | .valid hw =>
    let out := baikal_clk_enable k.fw hw s.trace
    .ok (out.1, { s with trace := out.2, events := s.events ++ [probe_event.enabled hw] })

/-- Modelled from the spec: of_clk_add_provider belongs to the clock framework.  It
publishes the provider and returns zero, or returns an error code and publishes
nothing. -/
def of_clk_add_provider (k : kernel) (p : of_provider) (s : probe_state) : Int × probe_state :=
  if k.add_provider_rc = 0 then (0, { s with provider := some p }) else (k.add_provider_rc, s)

/-- Modelled from the spec: the loop construct of_property_for_each_u32 is declared in
the kernel headers, not among the sources.  It visits the cells of the property in the
order the configuration lists them and stores each cell in the loop variable.  This is
the loop of lines 284 to 286: its body is empty, so all that remains afterwards is the
loop variable, which holds the cell visited last. -/
def of_property_for_each_u32_empty_body (index : Nat) : List Nat → Nat
  | [] => index
  | u :: rest => of_property_for_each_u32_empty_body (u % U32_SIZE) rest

/-- The value of index + 1 computed in u32 arithmetic at lines 288 to 290 from the
configured indices: the size of the channel table and the value of clk_num. -/
def probe_clk_num (indices : List Nat) : Nat :=
  (of_property_for_each_u32_empty_body 0 indices + 1) % U32_SIZE

/-- Local variables of the registration loop of lines 303 to 337. -/
structure ch_loop where
  i : Nat
  clk_ch_name : Option String
  cmu_ch : List (Option baikal_clk_cmu)
  clks : Option (List (Option clk))
  s : probe_state

/-- The registration loop of lines 303 to 337, one iteration per configured index.
The result is the loop state after the last iteration, or the way the body left the
function early. -/
def probe_channels (k : kernel) (node : device_node) (cmu : baikal_clk_cmu) :
    List Nat → ch_loop → Except probe_result ch_loop
  | [], st => .ok st
  | u :: rest, st =>
    let index := u % U32_SIZE
    -- of_property_read_string_index leaves the variable alone when entry i is missing
    let clk_ch_name := match node.clock_names.get? st.i with
      | some n => some n
      | none => st.clk_ch_name
    let init_ch_i : clk_init_data :=
      { name := clk_ch_name, parent_names := cmu.name, num_parents := 1,
        flags := CLK_IGNORE_UNUSED }
    -- cmu_ch[index] = kzalloc(...)
    let a := kalloc k st.s
    if st.cmu_ch.length ≤ index then
      .error (.crash (fault.out_of_bounds index st.cmu_ch.length) a.2)
    else if !a.1 then
      .error (.ret (-ENOMEM) a.2)
    else
      let unit : baikal_clk_cmu :=
        { hw_init := some init_ch_i, cmu_id := index, parent := cmu.cmu_id,
          name := clk_ch_name, is_clk_ch := 1 }
      let cmu_ch := st.cmu_ch.set index (some unit)
      -- clk_ch->clks[index] = clk_register(NULL, &cmu_ch[index]->hw)
      let r := clk_register k unit a.2
      match st.clks with
      | none => .error (.crash fault.null_deref r.2)
      | some clks =>
        let clks := clks.set index (some r.1)
        let l := clk_register_clkdev k r.1 clk_ch_name r.2
        match clk_prepare_enable k r.1 l.2 with
        | .error f => .error (.crash f l.2)
        | .ok e =>
          probe_channels k node cmu rest
            { i := st.i + 1, clk_ch_name := clk_ch_name, cmu_ch := cmu_ch,
              clks := some clks, s := e.2 }

/-- The function baikal_clk_probe (lines 217 to 343). -/
def baikal_clk_probe (k : kernel) (node : device_node) (s0 : probe_state) : probe_result :=
  -- cmu = kzalloc(...)
  let a := kalloc k s0
  if !a.1 then .ret (-ENOMEM) a.2 else
  let init : clk_init_data :=
    { name := node.clock_output_names, parent_names := node.parent_name,
      num_parents := 1, flags := CLK_IGNORE_UNUSED }
  let cmu : baikal_clk_cmu :=
    { hw_init := some init,
      cmu_id := (node.cmu_id.getD 0) % U32_SIZE,
      parent := (node.clock_frequency.getD 0) % U32_SIZE,
      name := node.clock_output_names,
      is_clk_ch := 0 }
  let r := clk_register k cmu a.2
  if IS_ERR r.1 then .ret (-ENOMEM) r.2 else
  let l := clk_register_clkdev k r.1 cmu.name r.2
  match clk_prepare_enable k r.1 l.2 with
  | .error f => .crash f l.2
  | .ok e =>
    -- number = of_property_count_u32_elems(node, "clock-indices")
    match node.clock_indices with
    | none => let p := of_clk_add_provider k (.simple r.1) e.2; .ret p.1 p.2
    | some [] => let p := of_clk_add_provider k (.simple r.1) e.2; .ret p.1 p.2
    | some (u :: us) =>
      -- clk_ch = kmalloc(...)
      let a1 := kalloc k e.2
      if !a1.1 then .ret (-ENOMEM) a1.2 else
      let n := probe_clk_num (u :: us)
      -- clk_ch->clks = kcalloc(index + 1, ...), not checked
      let a2 := kalloc k a1.2
      let clks : Option (List (Option clk)) :=
        if a2.1 then some (List.replicate n none) else none
      -- cmu_ch = kcalloc(index + 1, ...)
      let a3 := kalloc k a2.2
      if !a3.1 then .ret (-ENOMEM) a3.2 else
      -- init_ch = kcalloc(number + 1, ...)
      let a4 := kalloc k a3.2
      if !a4.1 then .ret (-ENOMEM) a4.2 else
      match probe_channels k node cmu (u :: us)
          { i := 0, clk_ch_name := none, cmu_ch := List.replicate n none, clks := clks,
            s := a4.2 } with
      | .error res => res
      | .ok st =>
        let p := of_clk_add_provider k (.onecell { clks := st.clks, clk_num := n }) st.s
        .ret p.1 p.2

/-- The return value of bring-up; none when it ended in a memory error. -/
def probe_result.returned : probe_result → Option Int
  | .ret rc _ => some rc
  | .crash _ _ => none

/-- The state in which bring-up ended. -/
def probe_result.state : probe_result → probe_state
  | .ret _ s => s
  | .crash _ s => s

/-- The indices configured in the node; none when the property is absent. -/
def device_node.indices (node : device_node) : List Nat :=
  node.clock_indices.getD []

/-! ### Summary of what bring-up builds

The definitions below restate, as plain functions of the node, the units that the body
of baikal_clk_probe builds; the theorems further down prove that a bring-up that
returns zero has built exactly these. -/

/-- The unit an event is about. -/
def probe_event.unit : probe_event → baikal_clk_cmu
  | .registered hw _ => hw
  | .enabled hw => hw

/-- The PLL unit filled in at lines 234 to 254. -/
def pll_unit (node : device_node) : baikal_clk_cmu :=
  { hw_init := some { name := node.clock_output_names, parent_names := node.parent_name,
                      num_parents := 1, flags := CLK_IGNORE_UNUSED },
    cmu_id := (node.cmu_id.getD 0) % U32_SIZE,
    parent := (node.clock_frequency.getD 0) % U32_SIZE,
    name := node.clock_output_names,
    is_clk_ch := 0 }

/-- The channel name after of_property_read_string_index at position i (line 304). -/
def read_clk_ch_name (node : device_node) (i : Nat) (prev : Option String) : Option String :=
  match node.clock_names.get? i with
  | some n => some n
  | none => prev

/-- The channel unit filled in at lines 307 to 322 for one index. -/
def channel_unit (cmu : baikal_clk_cmu) (index : Nat) (name : Option String) :
    baikal_clk_cmu :=
  { hw_init := some { name := name, parent_names := cmu.name, num_parents := 1,
                      flags := CLK_IGNORE_UNUSED },
    cmu_id := index, parent := cmu.cmu_id, name := name, is_clk_ch := 1 }

/-- The channel units built by the registration loop, in the order of the list, when
the loop starts at position i with the name prev in its variable. -/
def channel_units (node : device_node) (cmu : baikal_clk_cmu) :
    List Nat → Nat → Option String → List baikal_clk_cmu
  | [], _, _ => []
  | u :: rest, i, prev =>
    channel_unit cmu (u % U32_SIZE) (read_clk_ch_name node i prev) ::
      channel_units node cmu rest (i + 1) (read_clk_ch_name node i prev)

/-- The request that baikal_clk_enable sends for a unit. -/
def enable_request (pclk : baikal_clk_cmu) : smc_call :=
  { a0 := BAIKAL_SMC_LCRU_ID % U64_SIZE, a1 := pclk.cmu_id % U64_SIZE,
    a2 := (if pclk.is_clk_ch ≠ 0 then CMU_CLK_CH_ENABLE else CMU_PLL_ENABLE) % U64_SIZE,
    a3 := 0 % U64_SIZE, a4 := pclk.parent % U64_SIZE, a5 := 0 % U64_SIZE,
    a6 := 0 % U64_SIZE, a7 := 0 % U64_SIZE }

/-- The table after the given units were stored, one after the other, each in the slot
of its own index. -/
def store_units (us : List baikal_clk_cmu) (t : List (Option clk)) : List (Option clk) :=
  us.foldl (fun acc u => acc.set u.cmu_id (some (clk.valid u))) t

/-- The events of registering and enabling one unit. -/
def unit_events (u : baikal_clk_cmu) : List probe_event :=
  [probe_event.registered u (clk.valid u), probe_event.enabled u]

/-! ## The DWMAC glue layer (dwmac-baikal.c lines 116 to 138) -/

/-- Link speed 10 Mbit/s, from the ethtool header. -/
def SPEED_10 : Nat := 10

/-- Link speed 100 Mbit/s, from the ethtool header. -/
def SPEED_100 : Nat := 100

/-- Link speed 1000 Mbit/s, from the ethtool header. -/
def SPEED_1000 : Nat := 1000

/-- The struct baikal_dwmac; the clock pointer tx2_clk is a handle number. -/
structure baikal_dwmac where
  tx2_clk : Nat
deriving DecidableEq

/-- One call of clk_set_rate: the clock handle and the requested rate in Hz. -/
structure clk_set_rate_call where
  clk : Nat
  rate : Nat
deriving DecidableEq

/-- The function baikal_dwmac_fix_mac_speed (lines 116 to 138).  The switch picks the
TX2 frequency; the default case returns before clk_set_rate is reached.  The argument
reqs lists the clk_set_rate calls made so far. -/
def baikal_dwmac_fix_mac_speed (dwmac : baikal_dwmac) (speed : Nat)
    (reqs : List clk_set_rate_call) : List clk_set_rate_call :=
  let tx2_clk_freq : Option Nat :=
    if speed = SPEED_1000 then some 250000000
    else if speed = SPEED_100 then some 50000000
    else if speed = SPEED_10 then some 5000000
    else none
  match tx2_clk_freq with
  | none => reqs
  | some f => reqs ++ [{ clk := dwmac.tx2_clk, rate := f }]

/-! ## Sample inputs -/

/-- A PLL unit: sys0 with id 3 and a reference of 25 MHz. -/
def sys0 : baikal_clk_cmu :=
  { hw_init := none, cmu_id := 3, parent := 25000000, name := some "sys0", is_clk_ch := 0 }

/-- A channel unit: uart at index 2, fed by the PLL with id 3. -/
def uart : baikal_clk_cmu :=
  { hw_init := none, cmu_id := 2, parent := 3, name := some "uart", is_clk_ch := 1 }

/-- A kernel in which every allocation and registration succeeds and the firmware
answers zero. -/
def good_kernel : kernel :=
  { fw := const_fw 0, alloc_ok := fun _ => true, clk_register_ok := fun _ => true,
    clkdev_ok := fun _ => true, add_provider_rc := 0 }

/-- A kernel in which the second call of clk_register, the one for the first channel,
fails and everything else succeeds. -/
def first_channel_register_fails : kernel :=
  { good_kernel with clk_register_ok := fun n => n != 1 }

/-- A kernel in which the third allocation, the one for the array clk_ch->clks, fails and
everything else succeeds. -/
def clks_alloc_fails : kernel :=
  { good_kernel with alloc_ok := fun n => n != 2 }

/-- A kernel in which the first call of clk_register, the one for the PLL, fails and
everything else succeeds. -/
def pll_register_fails : kernel :=
  { good_kernel with clk_register_ok := fun n => n != 0 }

/-- A firmware that tells calls apart: it answers r to a call whose command slot a2 is cmd
and whose rate slot a3 is rate, and 57005 to every other call. -/
def picky_fw (cmd rate r : Nat) : Firmware :=
  fun _ c => { a0 := if c.a2 = cmd ∧ c.a3 = rate then r else 57005, a1 := 0, a2 := 0, a3 := 0 }

/-- A node for PLL sys0 (id 3, 25 MHz) with the given channel indices and names. -/
def sys0_node (indices : List Nat) (names : List String) : device_node :=
  { clock_output_names := some "sys0", clock_frequency := some 25000000, cmu_id := some 3,
    parent_name := some "osc", clock_indices := some indices, clock_names := names }

/-! ## Word lemmas -/

theorem u32_lt_u64 {x : Nat} (h : x < U32_SIZE) : x < U64_SIZE := by
  unfold U32_SIZE at h; unfold U64_SIZE; omega

theorem mod_u64_of_u32 {x : Nat} (h : x < U32_SIZE) : x % U64_SIZE = x :=
  Nat.mod_eq_of_lt (u32_lt_u64 h)

/-- The int made from a word is zero exactly when the low 32 bits of the word are zero. -/
theorem to_int_eq_zero_iff (x : Nat) : to_int x = 0 ↔ x % U32_SIZE = 0 := by
  unfold to_int
  have hlt : x % U32_SIZE < U32_SIZE := Nat.mod_lt _ (by unfold U32_SIZE; norm_num)
  unfold U32_SIZE at *
  split <;> omega

/-- C1: for a channel unit (is_clk_ch non-zero), whatever the rate and the parent-rate
hint, the single request issued by get_rate, by set_rate and by round_rate carries the
stored parent field of the unit in the reference slot a4.  The hint does not occur in
the right-hand side, so it never reaches the slot. -/
theorem channel_reference_is_stored_parent (fw : Firmware) (pclk : baikal_clk_cmu)
    (hwf : pclk.wf) (hch : pclk.is_clk_ch ≠ 0) (rate hint : Nat) (tr : List smc_call) :
    (∃ c, (baikal_clk_recalc_rate fw pclk hint tr).2 = tr ++ [c] ∧ c.a4 = pclk.parent) ∧
    (∃ c, (baikal_clk_set_rate fw pclk rate hint tr).2 = tr ++ [c] ∧ c.a4 = pclk.parent) ∧
    (∃ c, (baikal_clk_round_rate fw pclk rate hint tr).2 = tr ++ [c] ∧ c.a4 = pclk.parent) := by
  have hp : pclk.parent % U64_SIZE = pclk.parent := mod_u64_of_u32 hwf.2.1
  refine ⟨⟨_, rfl, ?_⟩, ⟨_, rfl, ?_⟩, ⟨_, rfl, ?_⟩⟩ <;> simp [hch, hp]

/-- Witness for C1: the channel uart with the largest 64-bit hint. -/
theorem channel_reference_is_stored_parent_witness :
    uart.wf ∧ uart.is_clk_ch ≠ 0 ∧
    (∃ c, (baikal_clk_recalc_rate (const_fw 0) uart (2 ^ 64 - 1) []).2 = [] ++ [c] ∧
      c.a4 = uart.parent) ∧
    (∃ c, (baikal_clk_set_rate (const_fw 0) uart 48000000 (2 ^ 64 - 1) []).2 = [] ++ [c] ∧
      c.a4 = uart.parent) ∧
    (∃ c, (baikal_clk_round_rate (const_fw 0) uart 48000000 (2 ^ 64 - 1) []).2 = [] ++ [c] ∧
      c.a4 = uart.parent) :=
  ⟨by decide, by decide,
   channel_reference_is_stored_parent (const_fw 0) uart (by decide) (by decide)
     48000000 (2 ^ 64 - 1) []⟩

/-- C2: for a PLL unit (is_clk_ch zero), whatever the rate and the 64-bit parent-rate
hint, the single request issued by get_rate, by set_rate and by round_rate carries the
hint in the reference slot a4; for round_rate the hint is the value behind prate.
Neither the stored parent nor the stored id occurs in the right-hand side. -/
theorem pll_reference_is_hint (fw : Firmware) (pclk : baikal_clk_cmu)
    (hpll : pclk.is_clk_ch = 0) (rate hint : Nat) (hhint : hint < U64_SIZE)
    (tr : List smc_call) :
    (∃ c, (baikal_clk_recalc_rate fw pclk hint tr).2 = tr ++ [c] ∧ c.a4 = hint) ∧
    (∃ c, (baikal_clk_set_rate fw pclk rate hint tr).2 = tr ++ [c] ∧ c.a4 = hint) ∧
    (∃ c, (baikal_clk_round_rate fw pclk rate hint tr).2 = tr ++ [c] ∧ c.a4 = hint) := by
  have hh : hint % U64_SIZE = hint := Nat.mod_eq_of_lt hhint
  refine ⟨⟨_, rfl, ?_⟩, ⟨_, rfl, ?_⟩, ⟨_, rfl, ?_⟩⟩ <;> simp [hpll, hh]

/-- Witness for C2: the PLL sys0 with a hint of 24 MHz, which differs from its stored
parent (25 MHz) and from its id (3). -/
theorem pll_reference_is_hint_witness :
    sys0.is_clk_ch = 0 ∧ 24000000 < U64_SIZE ∧
    (∃ c, (baikal_clk_recalc_rate (const_fw 0) sys0 24000000 []).2 = [] ++ [c] ∧
      c.a4 = 24000000) ∧
    (∃ c, (baikal_clk_set_rate (const_fw 0) sys0 1200000000 24000000 []).2 = [] ++ [c] ∧
      c.a4 = 24000000) ∧
    (∃ c, (baikal_clk_round_rate (const_fw 0) sys0 1200000000 24000000 []).2 = [] ++ [c] ∧
      c.a4 = 24000000) :=
  ⟨by decide, by decide,
   pll_reference_is_hint (const_fw 0) sys0 (by decide) 1200000000 24000000 (by decide) []⟩

/-- C3: for every unit, each of the six operations issues a request whose target slot
a1 is the cmu_id of the unit and whose command slot a2 is fixed by the operation and by
whether is_clk_ch is zero: the PLL codes are 0 for set_rate, 1 for get_rate, 2 for
enable, 3 for disable, 4 for round_rate and 5 for is_enabled, and a channel gets the PLL
code plus 6. -/
theorem command_code_by_operation_and_kind (fw : Firmware) (pclk : baikal_clk_cmu)
    (hwf : pclk.wf) (rate hint : Nat) (tr : List smc_call) :
    (∃ c, (baikal_clk_set_rate fw pclk rate hint tr).2 = tr ++ [c] ∧ c.a1 = pclk.cmu_id ∧
      c.a2 = if pclk.is_clk_ch = 0 then 0 else 0 + 6) ∧
    (∃ c, (baikal_clk_recalc_rate fw pclk hint tr).2 = tr ++ [c] ∧ c.a1 = pclk.cmu_id ∧
      c.a2 = if pclk.is_clk_ch = 0 then 1 else 1 + 6) ∧
    (∃ c, (baikal_clk_enable fw pclk tr).2 = tr ++ [c] ∧ c.a1 = pclk.cmu_id ∧
      c.a2 = if pclk.is_clk_ch = 0 then 2 else 2 + 6) ∧
    (∃ c, (baikal_clk_disable fw pclk tr).2 = tr ++ [c] ∧ c.a1 = pclk.cmu_id ∧
      c.a2 = if pclk.is_clk_ch = 0 then 3 else 3 + 6) ∧
    (∃ c, (baikal_clk_round_rate fw pclk rate hint tr).2 = tr ++ [c] ∧ c.a1 = pclk.cmu_id ∧
      c.a2 = if pclk.is_clk_ch = 0 then 4 else 4 + 6) ∧
    (∃ c, (baikal_clk_is_enabled fw pclk tr).2 = tr ++ [c] ∧ c.a1 = pclk.cmu_id ∧
      c.a2 = if pclk.is_clk_ch = 0 then 5 else 5 + 6) := by
  have hid : pclk.cmu_id % U64_SIZE = pclk.cmu_id := mod_u64_of_u32 hwf.1
  refine ⟨⟨_, rfl, ?_, ?_⟩, ⟨_, rfl, ?_, ?_⟩, ⟨_, rfl, ?_, ?_⟩, ⟨_, rfl, ?_, ?_⟩,
    ⟨_, rfl, ?_, ?_⟩, ⟨_, rfl, ?_, ?_⟩⟩ <;>
  first
    | exact hid
    | (by_cases h : pclk.is_clk_ch = 0 <;>
        simp [h, U64_SIZE, CMU_PLL_SET_RATE, CMU_PLL_GET_RATE, CMU_PLL_ENABLE,
          CMU_PLL_DISABLE, CMU_PLL_ROUND_RATE, CMU_PLL_IS_ENABLED, CMU_CLK_CH_SET_RATE,
          CMU_CLK_CH_GET_RATE, CMU_CLK_CH_ENABLE, CMU_CLK_CH_DISABLE, CMU_CLK_CH_ROUND_RATE,
          CMU_CLK_CH_IS_ENABLED])

/-- Witness for C3: the channel uart, whose enable request targets unit 2 with code 8. -/
theorem command_code_by_operation_and_kind_witness :
    uart.wf ∧
    (∃ c, (baikal_clk_enable (const_fw 0) uart []).2 = [] ++ [c] ∧ c.a1 = uart.cmu_id ∧
      c.a2 = if uart.is_clk_ch = 0 then 2 else 2 + 6) :=
  ⟨by decide,
   (command_code_by_operation_and_kind (const_fw 0) uart (by decide) 0 0 []).2.2.1⟩

/-! ## Results reported to the caller -/

/-- C4: at the non-zero 64-bit result word 2 ^ 32 the function baikal_clk_enable returns
the int 0 for a PLL and for a channel, that is, it reports success although the call
gate reported a non-zero word, and although the pr_debug line of the same function
prints error for that word.  The return statement keeps the low 32 bits only. -/
theorem enable_reports_success_on_high_word :
    2 ^ 32 < U64_SIZE ∧ (2 ^ 32 : Nat) ≠ 0 ∧
    (baikal_clk_enable (const_fw (2 ^ 32)) sys0 []).1 = 0 ∧
    (baikal_clk_enable (const_fw (2 ^ 32)) uart []).1 = 0 ∧
    debug_verdict_error_ok
      (arm_smccc_smc (const_fw (2 ^ 32)) BAIKAL_SMC_LCRU_ID sys0.cmu_id CMU_PLL_ENABLE 0
        sys0.parent 0 0 0 []).1 = "error" := by
  refine ⟨by decide, by decide, ?_, ?_, ?_⟩ <;> decide

/-- C5: at the non-zero 64-bit result word 2 ^ 32 the function baikal_clk_set_rate
returns the int 0 for a PLL and for a channel, that is, it reports success although the
call gate reported a non-zero word, and although the pr_debug line of the same function
prints error for that word. -/
theorem set_rate_reports_success_on_high_word :
    2 ^ 32 < U64_SIZE ∧ (2 ^ 32 : Nat) ≠ 0 ∧
    (baikal_clk_set_rate (const_fw (2 ^ 32)) sys0 1200000000 25000000 []).1 = 0 ∧
    (baikal_clk_set_rate (const_fw (2 ^ 32)) uart 48000000 0 []).1 = 0 ∧
    debug_verdict_error_ok
      (arm_smccc_smc (const_fw (2 ^ 32)) BAIKAL_SMC_LCRU_ID sys0.cmu_id CMU_PLL_SET_RATE
        1200000000 25000000 0 0 0 []).1 = "error" := by
  refine ⟨by decide, by decide, ?_, ?_, ?_⟩ <;> decide

/-- C6: at the non-zero 64-bit result word 2 ^ 32 the function baikal_clk_is_enabled
returns the int 0 for a PLL and for a channel, that is, it reports false although the
call gate reported a non-zero word, and although the pr_debug line of the same function
prints true for that word. -/
theorem is_enabled_reports_false_on_high_word :
    2 ^ 32 < U64_SIZE ∧ (2 ^ 32 : Nat) ≠ 0 ∧
    (baikal_clk_is_enabled (const_fw (2 ^ 32)) sys0 []).1 = 0 ∧
    (baikal_clk_is_enabled (const_fw (2 ^ 32)) uart []).1 = 0 ∧
    debug_verdict_true_false
      (arm_smccc_smc (const_fw (2 ^ 32)) BAIKAL_SMC_LCRU_ID uart.cmu_id
        CMU_CLK_CH_IS_ENABLED 0 uart.parent 0 0 0 []).1 = "true" := by
  refine ⟨by decide, by decide, ?_, ?_, ?_⟩ <;> decide

/-- What enable, set_rate and is_enabled report in general: a non-zero int exactly when
the low 32 bits of the result word are non-zero. -/
theorem int_result_nonzero_iff_low_word (fw : Firmware) (pclk : baikal_clk_cmu)
    (rate hint : Nat) (tr : List smc_call) :
    ((baikal_clk_enable fw pclk tr).1 ≠ 0 ↔
      (arm_smccc_smc fw BAIKAL_SMC_LCRU_ID pclk.cmu_id
        (if pclk.is_clk_ch ≠ 0 then CMU_CLK_CH_ENABLE else CMU_PLL_ENABLE)
        0 pclk.parent 0 0 0 tr).1.a0 % U32_SIZE ≠ 0) ∧
    ((baikal_clk_set_rate fw pclk rate hint tr).1 ≠ 0 ↔
      (arm_smccc_smc fw BAIKAL_SMC_LCRU_ID pclk.cmu_id
        (if pclk.is_clk_ch ≠ 0 then CMU_CLK_CH_SET_RATE else CMU_PLL_SET_RATE)
        rate (if pclk.is_clk_ch ≠ 0 then pclk.parent else hint) 0 0 0 tr).1.a0
          % U32_SIZE ≠ 0) ∧
    ((baikal_clk_is_enabled fw pclk tr).1 ≠ 0 ↔
      (arm_smccc_smc fw BAIKAL_SMC_LCRU_ID pclk.cmu_id
        (if pclk.is_clk_ch ≠ 0 then CMU_CLK_CH_IS_ENABLED else CMU_PLL_IS_ENABLED)
        0 pclk.parent 0 0 0 tr).1.a0 % U32_SIZE ≠ 0) := by
  refine ⟨?_, ?_, ?_⟩
  · exact not_congr (to_int_eq_zero_iff _)
  · exact not_congr (to_int_eq_zero_iff _)
  · exact not_congr (to_int_eq_zero_iff _)

/-- C7: the caller-visible outcome of baikal_clk_disable, its void result together with
the request it issued, is the same for any two firmwares, hence for any two result
words, zero or not: no error is propagated. -/
theorem disable_ignores_result (fw1 fw2 : Firmware) (pclk : baikal_clk_cmu)
    (tr : List smc_call) :
    baikal_clk_disable fw1 pclk tr = baikal_clk_disable fw2 pclk tr := by
  rfl

/-- C9: each of the six operations extends the trace by exactly one request, for every
firmware and therefore for every result word: a non-zero result of SET_RATE or ENABLE is
followed by no second request. -/
theorem one_request_per_operation (fw : Firmware) (pclk : baikal_clk_cmu)
    (rate hint : Nat) (tr : List smc_call) :
    (∃ c, (baikal_clk_set_rate fw pclk rate hint tr).2 = tr ++ [c]) ∧
    (∃ c, (baikal_clk_recalc_rate fw pclk hint tr).2 = tr ++ [c]) ∧
    (∃ c, (baikal_clk_enable fw pclk tr).2 = tr ++ [c]) ∧
    (∃ c, (baikal_clk_disable fw pclk tr).2 = tr ++ [c]) ∧
    (∃ c, (baikal_clk_round_rate fw pclk rate hint tr).2 = tr ++ [c]) ∧
    (∃ c, (baikal_clk_is_enabled fw pclk tr).2 = tr ++ [c]) :=
  ⟨⟨_, rfl⟩, ⟨_, rfl⟩, ⟨_, rfl⟩, ⟨_, rfl⟩, ⟨_, rfl⟩, ⟨_, rfl⟩⟩

/-! ## Sizing of the channel table -/

/-- The table size computed by bring-up is the configured index listed last, plus one,
in u32 arithmetic. -/
theorem probe_clk_num_eq_last (indices : List Nat) (h : indices ≠ []) :
    probe_clk_num indices = (indices.getLast h % U32_SIZE + 1) % U32_SIZE := by
  unfold probe_clk_num
  have key : ∀ (l : List Nat) (hl : l ≠ []) (i : Nat),
      of_property_for_each_u32_empty_body i l = l.getLast hl % U32_SIZE := by
    intro l
    induction l with
    | nil => intro hl; exact absurd rfl hl
    | cons u rest ih =>
      intro _ i
      cases rest with
      | nil => rfl
      | cons v rest2 =>
        rw [of_property_for_each_u32_empty_body, ih (List.cons_ne_nil v rest2)]
        rfl
  rw [key indices h 0]

/-- C10: for the configured indices 7, 2 (descending) bring-up sizes the channel table
to 3 slots, not to the maximum index plus one, which is 8; index 7 lies outside the
table, and the store to slot 7 in the registration loop is out of bounds. -/
theorem table_sized_by_last_index :
    probe_clk_num [7, 2] = 3 ∧ ([7, 2] : List Nat).foldl max 0 + 1 = 8 ∧
    ¬ 7 < probe_clk_num [7, 2] ∧
    ∃ s, baikal_clk_probe good_kernel (sys0_node [7, 2] ["spi", "uart"]) probe_state.init
      = probe_result.crash (fault.out_of_bounds 7 3) s := by
  refine ⟨by decide, by decide, by decide, _, rfl⟩

/-! ## Argument slots of the requests -/

/-- C17: for every unit, every parent-rate hint and every 64-bit word r that the firmware
answers to the request issued by baikal_clk_recalc_rate, the function issues one GET_RATE
request whose rate slot a3 is 0 and returns r unchanged.  Nothing is assumed about the
answers of the firmware to other calls. -/
theorem recalc_rate_passes_zero_rate_and_returns_word (fw : Firmware)
    (pclk : baikal_clk_cmu) (hint r : Nat) (tr : List smc_call) (hr : r < U64_SIZE)
    (hfw : ∀ c, (baikal_clk_recalc_rate fw pclk hint tr).2 = tr ++ [c] → (fw tr c).a0 = r) :
    (baikal_clk_recalc_rate fw pclk hint tr).1 = r ∧
    ∃ c, (baikal_clk_recalc_rate fw pclk hint tr).2 = tr ++ [c] ∧ c.a3 = 0 ∧
      c.a2 = if pclk.is_clk_ch = 0 then CMU_PLL_GET_RATE else CMU_CLK_CH_GET_RATE := by
  refine ⟨?_, _, rfl, ?_, ?_⟩
  · have h := hfw _ rfl
    simp only [baikal_clk_recalc_rate, arm_smccc_smc]
    rw [h, Nat.mod_eq_of_lt hr]
  · simp [U64_SIZE]
  · by_cases h : pclk.is_clk_ch = 0 <;>
      simp [h, U64_SIZE, CMU_PLL_GET_RATE, CMU_CLK_CH_GET_RATE]

/-- Witness for C17: the channel uart and a firmware that reports 48 MHz for a channel
GET_RATE request with rate slot 0 and another word for any other call. -/
theorem recalc_rate_passes_zero_rate_and_returns_word_witness :
    (baikal_clk_recalc_rate (picky_fw CMU_CLK_CH_GET_RATE 0 48000000) uart 25000000 []).1
      = 48000000 ∧
    ∃ c, (baikal_clk_recalc_rate (picky_fw CMU_CLK_CH_GET_RATE 0 48000000) uart 25000000
        []).2 = [] ++ [c] ∧
      c.a3 = 0 ∧
      c.a2 = if uart.is_clk_ch = 0 then CMU_PLL_GET_RATE else CMU_CLK_CH_GET_RATE :=
  recalc_rate_passes_zero_rate_and_returns_word (picky_fw CMU_CLK_CH_GET_RATE 0 48000000)
    uart 25000000 48000000 [] (by decide)
    (fun c hc => by
      have h : c = (baikal_clk_recalc_rate (picky_fw CMU_CLK_CH_GET_RATE 0 48000000) uart
          25000000 []).2.getLast (by decide) := by
        rw [List.getLast_congr _ (by simp) hc]; simp
      subst h
      decide)

/-- C18: for a unit of either kind, the request issued by enable, by disable and by
is_enabled has the rate slot a3 equal to 0, the reference slot a4 equal to the stored
parent field of the unit, and the remaining slots a5, a6 and a7 equal to 0. -/
theorem gate_operations_pass_stored_parent (fw : Firmware) (pclk : baikal_clk_cmu)
    (hwf : pclk.wf) (tr : List smc_call) :
    (∃ c, (baikal_clk_enable fw pclk tr).2 = tr ++ [c] ∧ c.a3 = 0 ∧ c.a4 = pclk.parent ∧
      c.a5 = 0 ∧ c.a6 = 0 ∧ c.a7 = 0) ∧
    (∃ c, (baikal_clk_disable fw pclk tr).2 = tr ++ [c] ∧ c.a3 = 0 ∧ c.a4 = pclk.parent ∧
      c.a5 = 0 ∧ c.a6 = 0 ∧ c.a7 = 0) ∧
    (∃ c, (baikal_clk_is_enabled fw pclk tr).2 = tr ++ [c] ∧ c.a3 = 0 ∧
      c.a4 = pclk.parent ∧ c.a5 = 0 ∧ c.a6 = 0 ∧ c.a7 = 0) := by
  have hp : pclk.parent % U64_SIZE = pclk.parent := mod_u64_of_u32 hwf.2.1
  have h0 : 0 % U64_SIZE = 0 := by simp [U64_SIZE]
  exact ⟨⟨_, rfl, h0, hp, h0, h0, h0⟩, ⟨_, rfl, h0, hp, h0, h0, h0⟩,
    ⟨_, rfl, h0, hp, h0, h0, h0⟩⟩

/-- Witness for C18: the PLL sys0, whose stored parent is its reference of 25 MHz. -/
theorem gate_operations_pass_stored_parent_witness :
    sys0.wf ∧
    (∃ c, (baikal_clk_enable (const_fw 0) sys0 []).2 = [] ++ [c] ∧ c.a3 = 0 ∧
      c.a4 = sys0.parent ∧ c.a5 = 0 ∧ c.a6 = 0 ∧ c.a7 = 0) :=
  ⟨by decide, (gate_operations_pass_stored_parent (const_fw 0) sys0 (by decide) []).1⟩

/-! ## The transmit clock of the network MAC -/

/-- C19: for every link speed, baikal_dwmac_fix_mac_speed adds to the clk_set_rate calls
exactly one call on the TX2 clock, with 250000000 Hz for speed 1000, 50000000 Hz for
speed 100 and 5000000 Hz for speed 10, and adds no call for any other speed. -/
theorem fix_mac_speed_requests (dwmac : baikal_dwmac) (speed : Nat)
    (reqs : List clk_set_rate_call) :
    baikal_dwmac_fix_mac_speed dwmac speed reqs =
      reqs ++
        (if speed = 1000 then [{ clk := dwmac.tx2_clk, rate := 250000000 }]
         else if speed = 100 then [{ clk := dwmac.tx2_clk, rate := 50000000 }]
         else if speed = 10 then [{ clk := dwmac.tx2_clk, rate := 5000000 }]
         else []) := by
  unfold baikal_dwmac_fix_mac_speed SPEED_1000 SPEED_100 SPEED_10
  by_cases h1 : speed = 1000
  · simp [h1]
  · by_cases h2 : speed = 100
    · simp [h2]
    · by_cases h3 : speed = 10
      · simp [h3]
      · simp [h1, h2, h3]

/-! ## Bring-up: what a run that returns zero has built -/

/-- The request sent by baikal_clk_enable is the one named enable_request. -/
theorem enable_trace (fw : Firmware) (pclk : baikal_clk_cmu) (tr : List smc_call) :
    (baikal_clk_enable fw pclk tr).2 = tr ++ [enable_request pclk] := rfl

/-- An allocation request leaves trace, events and provider alone. -/
theorem kalloc_frame (k : kernel) (s : probe_state) :
    (kalloc k s).2.trace = s.trace ∧ (kalloc k s).2.events = s.events ∧
    (kalloc k s).2.provider = s.provider := ⟨rfl, rfl, rfl⟩

/-- What clk_register changes: it records one event, and returns either the clock of the
unit or an error pointer. -/
theorem clk_register_frame (k : kernel) (hw : baikal_clk_cmu) (s : probe_state) :
    (clk_register k hw s).2.trace = s.trace ∧
    (clk_register k hw s).2.events
      = s.events ++ [probe_event.registered hw (clk_register k hw s).1] ∧
    (clk_register k hw s).2.provider = s.provider ∧
    ((clk_register k hw s).1 = clk.valid hw ∨ ∃ e, (clk_register k hw s).1 = clk.error e) := by
  refine ⟨rfl, rfl, rfl, ?_⟩
  unfold clk_register
  by_cases h : k.clk_register_ok s.regs = true
  · left; simp [h]
  · right; exact ⟨-ENOMEM, by simp [h]⟩

/-- Registering a lookup leaves trace, events and provider alone. -/
theorem clk_register_clkdev_frame (k : kernel) (c : clk) (name : Option String)
    (s : probe_state) :
    (clk_register_clkdev k c name s).2.trace = s.trace ∧
    (clk_register_clkdev k c name s).2.events = s.events ∧
    (clk_register_clkdev k c name s).2.provider = s.provider := by
  unfold clk_register_clkdev
  cases c with
  | error e => exact ⟨rfl, rfl, rfl⟩
  | valid hw =>
    by_cases h : k.clkdev_ok s.lookups_tried = true
    · simp [h]
    · simp [h]

/-- When clk_prepare_enable returns, its argument was a registered clock and exactly one
enable request was sent for its unit. -/
theorem clk_prepare_enable_ok (k : kernel) (c : clk) (s : probe_state)
    (e : Int × probe_state) (h : clk_prepare_enable k c s = .ok e) :
    ∃ hw, c = clk.valid hw ∧ e.2.trace = s.trace ++ [enable_request hw] ∧
      e.2.events = s.events ++ [probe_event.enabled hw] ∧ e.2.provider = s.provider := by
  cases c with
  | error x => simp [clk_prepare_enable] at h
  | valid hw =>
    simp only [clk_prepare_enable, Except.ok.injEq] at h
    subst h
    exact ⟨hw, rfl, rfl, rfl, rfl⟩

/-- One iteration of the registration loop, written with the summary functions. -/
theorem probe_channels_step (k : kernel) (node : device_node) (cmu : baikal_clk_cmu)
    (u : Nat) (rest : List Nat) (st : ch_loop) (t : List (Option clk))
    (name : Option String) (unit : baikal_clk_cmu) (r : clk × probe_state)
    (l : Int × probe_state) (hc : st.clks = some t)
    (hname : name = read_clk_ch_name node st.i st.clk_ch_name)
    (hunit : unit = channel_unit cmu (u % U32_SIZE) name)
    (hr : r = clk_register k unit (kalloc k st.s).2)
    (hl : l = clk_register_clkdev k r.1 name r.2) :
    probe_channels k node cmu (u :: rest) st =
      if st.cmu_ch.length ≤ u % U32_SIZE then
        .error (.crash (fault.out_of_bounds (u % U32_SIZE) st.cmu_ch.length) (kalloc k st.s).2)
      else if (kalloc k st.s).1 = false then
        .error (.ret (-ENOMEM) (kalloc k st.s).2)
      else
        match clk_prepare_enable k r.1 l.2 with
        | .error f => .error (.crash f l.2)
        | .ok e =>
          probe_channels k node cmu rest
            { i := st.i + 1, clk_ch_name := name,
              cmu_ch := st.cmu_ch.set (u % U32_SIZE) (some unit),
              clks := some (t.set (u % U32_SIZE) (some r.1)), s := e.2 } := by
  subst hname hunit hr hl
  rw [probe_channels]
  simp only [hc]
  by_cases h1 : st.cmu_ch.length ≤ u % U32_SIZE
  · simp only [h1, if_true]
  · by_cases h2 : (kalloc k st.s).1 = false
    · simp only [h1, h2, if_false, if_true, Bool.not_false]
    · simp only [h1, h2, if_false, Bool.not_eq_true']
      rfl

/-- A registration loop that runs to its end has built the units of channel_units, has
stored each in the slot of its index, and has sent one enable request per unit, each
right after the registration of that unit. -/
theorem probe_channels_ok (k : kernel) (node : device_node) (cmu : baikal_clk_cmu) :
    ∀ (rest : List Nat) (st st' : ch_loop) (t : List (Option clk)),
      st.clks = some t → st.cmu_ch.length = t.length →
      probe_channels k node cmu rest st = .ok st' →
      st'.clks = some (store_units (channel_units node cmu rest st.i st.clk_ch_name) t) ∧
      st'.s.trace = st.s.trace
        ++ (channel_units node cmu rest st.i st.clk_ch_name).map enable_request ∧
      st'.s.events = st.s.events
        ++ (channel_units node cmu rest st.i st.clk_ch_name).flatMap unit_events ∧
      st'.s.provider = st.s.provider ∧
      (∀ u ∈ channel_units node cmu rest st.i st.clk_ch_name, u.cmu_id < t.length) := by
  intro rest
  induction rest with
  | nil =>
    intro st st' t hc hl h
    simp only [probe_channels, Except.ok.injEq] at h
    subst h
    simp [channel_units, store_units, hc]
  | cons u rest ih =>
    intro st st' t hc hl h
    rw [probe_channels_step k node cmu u rest st t _ _ _ _ hc rfl rfl rfl rfl] at h
    split at h
    · exact absurd h (by simp)
    · split at h
      · exact absurd h (by simp)
      · rename_i hb ha
        split at h
        · exact absurd h (by simp)
        · rename_i e heq
          obtain ⟨hw, hv, htr, hev, hpr⟩ := clk_prepare_enable_ok _ _ _ _ heq
          obtain ⟨r1, r2, r3, r4⟩ := clk_register_frame k
            (channel_unit cmu (u % U32_SIZE) (read_clk_ch_name node st.i st.clk_ch_name))
            (kalloc k st.s).2
          obtain ⟨d1, d2, d3⟩ := clk_register_clkdev_frame k
            (clk_register k
              (channel_unit cmu (u % U32_SIZE) (read_clk_ch_name node st.i st.clk_ch_name))
              (kalloc k st.s).2).1
            (read_clk_ch_name node st.i st.clk_ch_name)
            (clk_register k
              (channel_unit cmu (u % U32_SIZE) (read_clk_ch_name node st.i st.clk_ch_name))
              (kalloc k st.s).2).2
          have hval : (clk_register k
              (channel_unit cmu (u % U32_SIZE) (read_clk_ch_name node st.i st.clk_ch_name))
              (kalloc k st.s).2).1
              = clk.valid (channel_unit cmu (u % U32_SIZE)
                  (read_clk_ch_name node st.i st.clk_ch_name)) := by
            rcases r4 with hval | ⟨x, herr⟩
            · exact hval
            · exact absurd (hv.symm.trans herr) (by simp)
          have hunit : hw
              = channel_unit cmu (u % U32_SIZE) (read_clk_ch_name node st.i st.clk_ch_name) :=
            clk.valid.inj (hv.symm.trans hval)
          have hlen : u % U32_SIZE < t.length := by omega
          rw [hval] at h r2 d1 d2 d3 htr hev hpr
          subst hunit
          obtain ⟨h1, h2, h3, h4, h5⟩ := ih _ st' _ rfl (by simp [hl]) h
          refine ⟨?_, ?_, ?_, ?_, ?_⟩
          · rw [h1]; rfl
          · rw [h2, htr, d1, r1]
            simp [channel_units, kalloc]
          · rw [h3, hev, d2, r2]
            simp [channel_units, unit_events, kalloc]
          · rw [h4, hpr, d3, r3]; rfl
          · intro v hv'
            simp only [channel_units, List.mem_cons] at hv'
            rcases hv' with rfl | hv'
            · exact hlen
            · have := h5 v hv'
              simpa using this

/-- Without a channel table the first iteration of the registration loop ends in an
error or a memory error. -/
theorem probe_channels_no_table (k : kernel) (node : device_node) (cmu : baikal_clk_cmu)
    (u : Nat) (rest : List Nat) (st : ch_loop) (hc : st.clks = none) :
    ∃ res, probe_channels k node cmu (u :: rest) st = .error res ∧ res.returned ≠ some 0 := by
  rw [probe_channels]
  simp only [hc]
  by_cases hb : st.cmu_ch.length ≤ u % U32_SIZE
  · rw [if_pos hb]
    exact ⟨_, rfl, by simp [probe_result.returned]⟩
  · rw [if_neg hb]
    by_cases ha : (!(kalloc k st.s).1) = true
    · rw [if_pos ha]
      exact ⟨_, rfl, by simp [probe_result.returned, ENOMEM]⟩
    · rw [if_neg ha]
      exact ⟨_, rfl, by simp [probe_result.returned]⟩

/-- The registration loop never leaves bring-up through a return of zero. -/
theorem probe_channels_error (k : kernel) (node : device_node) (cmu : baikal_clk_cmu) :
    ∀ (rest : List Nat) (st : ch_loop) (res : probe_result),
      probe_channels k node cmu rest st = .error res → res.returned ≠ some 0 := by
  intro rest
  induction rest with
  | nil =>
    intro st res h
    simp [probe_channels] at h
  | cons u rest ih =>
    intro st res h
    cases hc : st.clks with
    | none =>
      obtain ⟨res', h1, h2⟩ := probe_channels_no_table k node cmu u rest st hc
      rw [h1] at h
      cases h
      exact h2
    | some t =>
      rw [probe_channels_step k node cmu u rest st t _ _ _ _ hc rfl rfl rfl rfl] at h
      split at h
      · cases h; simp [probe_result.returned]
      · split at h
        · cases h; simp [probe_result.returned, ENOMEM]
        · split at h
          · cases h; simp [probe_result.returned]
          · exact ih _ _ h

/-- What of_clk_add_provider does when it returns zero. -/
theorem of_clk_add_provider_zero (k : kernel) (p : of_provider) (s : probe_state)
    (h : (of_clk_add_provider k p s).1 = 0) :
    (of_clk_add_provider k p s).2 = { s with provider := some p } := by
  unfold of_clk_add_provider at h ⊢
  by_cases hrc : k.add_provider_rc = 0
  · simp [hrc]
  · simp [hrc] at h

/-- A bring-up that returns zero has registered and enabled the PLL unit, then the channel
units one by one, and has published the PLL alone when no index is configured and the
channel table otherwise. -/
theorem probe_ret_zero (k : kernel) (node : device_node) (s0 s : probe_state)
    (h : baikal_clk_probe k node s0 = .ret 0 s) :
    s.trace = s0.trace ++ enable_request (pll_unit node) ::
      (channel_units node (pll_unit node) node.indices 0 none).map enable_request ∧
    s.events = s0.events ++ unit_events (pll_unit node) ++
      (channel_units node (pll_unit node) node.indices 0 none).flatMap unit_events ∧
    (∀ u ∈ channel_units node (pll_unit node) node.indices 0 none,
      u.cmu_id < probe_clk_num node.indices) ∧
    s.provider = some
      (if node.indices = [] then of_provider.simple (clk.valid (pll_unit node))
       else of_provider.onecell
        { clks := some (store_units (channel_units node (pll_unit node) node.indices 0 none)
            (List.replicate (probe_clk_num node.indices) none)),
          clk_num := probe_clk_num node.indices }) := by
  have hpll : pll_unit node =
      { hw_init := some { name := node.clock_output_names, parent_names := node.parent_name,
                          num_parents := 1, flags := CLK_IGNORE_UNUSED },
        cmu_id := (node.cmu_id.getD 0) % U32_SIZE,
        parent := (node.clock_frequency.getD 0) % U32_SIZE,
        name := node.clock_output_names,
        is_clk_ch := 0 } := rfl
  unfold baikal_clk_probe at h
  simp only [← hpll] at h
  split at h
  · exact absurd h (by simp [ENOMEM])
  split at h
  · exact absurd h (by simp [ENOMEM])
  split at h
  · exact absurd h (by simp)
  rename_i e heq
  obtain ⟨hw, hv, htr, hev, hpr⟩ := clk_prepare_enable_ok _ _ _ _ heq
  obtain ⟨r1, r2, r3, r4⟩ := clk_register_frame k (pll_unit node) (kalloc k s0).2
  obtain ⟨d1, d2, d3⟩ := clk_register_clkdev_frame k
    (clk_register k (pll_unit node) (kalloc k s0).2).1 node.clock_output_names
    (clk_register k (pll_unit node) (kalloc k s0).2).2
  have hval : (clk_register k (pll_unit node) (kalloc k s0).2).1 = clk.valid (pll_unit node) := by
    rcases r4 with hval | ⟨x, herr⟩
    · exact hval
    · exact absurd (hv.symm.trans herr) (by simp)
  have hunit : hw = pll_unit node := clk.valid.inj (hv.symm.trans hval)
  rw [hval] at h r2 d1 d2 d3 htr hev hpr
  subst hunit
  have etr : e.2.trace = s0.trace ++ [enable_request (pll_unit node)] := by
    rw [htr, d1, r1]; rfl
  have eev : e.2.events = s0.events ++ unit_events (pll_unit node) := by
    rw [hev, d2, r2]; simp [unit_events, kalloc]
  have simple_case : ∀ (hnil : node.indices = [])
      (h' : probe_result.ret
        (of_clk_add_provider k (of_provider.simple (clk.valid (pll_unit node))) e.2).1
        (of_clk_add_provider k (of_provider.simple (clk.valid (pll_unit node))) e.2).2
          = probe_result.ret 0 s),
      s.trace = s0.trace ++ enable_request (pll_unit node) ::
        (channel_units node (pll_unit node) node.indices 0 none).map enable_request ∧
      s.events = s0.events ++ unit_events (pll_unit node) ++
        (channel_units node (pll_unit node) node.indices 0 none).flatMap unit_events ∧
      (∀ u ∈ channel_units node (pll_unit node) node.indices 0 none,
        u.cmu_id < probe_clk_num node.indices) ∧
      s.provider = some
        (if node.indices = [] then of_provider.simple (clk.valid (pll_unit node))
         else of_provider.onecell
          { clks := some (store_units
              (channel_units node (pll_unit node) node.indices 0 none)
              (List.replicate (probe_clk_num node.indices) none)),
            clk_num := probe_clk_num node.indices }) := by
    intro hnil h'
    injection h' with hrc hs
    rw [of_clk_add_provider_zero k _ _ hrc] at hs
    subst hs
    simp [hnil, channel_units, etr, eev]
  cases hidx : node.clock_indices with
  | none =>
    simp only [hidx] at h
    exact simple_case (by simp [device_node.indices, hidx]) h
  | some l =>
    cases l with
    | nil =>
      simp only [hidx] at h
      exact simple_case (by simp [device_node.indices, hidx]) h
    | cons u us =>
      have hind : node.indices = u :: us := by simp [device_node.indices, hidx]
      simp only [hidx] at h
      split at h
      · exact absurd h (by simp [ENOMEM])
      split at h
      · exact absurd h (by simp [ENOMEM])
      split at h
      · exact absurd h (by simp [ENOMEM])
      split at h
      · rename_i res hres
        have := probe_channels_error k node (pll_unit node) _ _ _ hres
        rw [h] at this
        exact absurd rfl this
      · rename_i st hst
        injection h with hrc hs
        rw [of_clk_add_provider_zero k _ _ hrc] at hs
        by_cases ha2 : (kalloc k (kalloc k e.2).2).1 = true
        · simp only [ha2, if_true] at hst
          obtain ⟨c1, c2, c3, c4, c5⟩ := probe_channels_ok k node (pll_unit node) _ _ _
            (List.replicate (probe_clk_num (u :: us)) none) rfl (by simp) hst
          subst hs
          simp only [List.length_replicate] at c5
          rw [hind]
          refine ⟨?_, ?_, c5, ?_⟩
          · simp [c2, kalloc, etr]
          · simp [c3, kalloc, eev]
          · simp [c1]
        · simp only [ha2] at hst
          obtain ⟨res, h1, _⟩ := probe_channels_no_table k node (pll_unit node) u us
            { i := 0, clk_ch_name := none,
              cmu_ch := List.replicate (probe_clk_num (u :: us)) none, clks := none,
              s := (kalloc k (kalloc k (kalloc k (kalloc k e.2).2).2).2).2 } rfl
          simp only [Bool.false_eq_true, if_false] at hst
          rw [h1] at hst
          cases hst

/-! ## Properties of the units and of the table -/

/-- One unit is built per configured index. -/
theorem channel_units_length (node : device_node) (cmu : baikal_clk_cmu) :
    ∀ (l : List Nat) (i : Nat) (prev : Option String),
      (channel_units node cmu l i prev).length = l.length := by
  intro l
  induction l with
  | nil => intro i prev; rfl
  | cons u rest ih => intro i prev; simp [channel_units, ih]

/-- Every unit built by the loop is a channel fed by the given PLL, with the index of one
of the configured cells. -/
theorem channel_units_kind (node : device_node) (cmu : baikal_clk_cmu) :
    ∀ (l : List Nat) (i : Nat) (prev : Option String),
      ∀ u ∈ channel_units node cmu l i prev,
        u.is_clk_ch = 1 ∧ u.parent = cmu.cmu_id ∧ ∃ x ∈ l, u.cmu_id = x % U32_SIZE := by
  intro l
  induction l with
  | nil => intro i prev u hu; simp [channel_units] at hu
  | cons x rest ih =>
    intro i prev u hu
    simp only [channel_units, List.mem_cons] at hu
    rcases hu with rfl | hu
    · exact ⟨rfl, rfl, x, by simp, rfl⟩
    · obtain ⟨h1, h2, y, hy, h3⟩ := ih _ _ u hu
      exact ⟨h1, h2, y, by simp [hy], h3⟩

/-- The unit built at position j carries the index at position j and, when the
configuration has a name at that position, that name. -/
theorem channel_units_get (node : device_node) (cmu : baikal_clk_cmu) :
    ∀ (l : List Nat) (i : Nat) (prev : Option String) (j x : Nat),
      l[j]? = some x →
      ∃ u, (channel_units node cmu l i prev)[j]? = some u ∧ u.cmu_id = x % U32_SIZE ∧
        u.is_clk_ch = 1 ∧ u.parent = cmu.cmu_id ∧
        ∀ n, node.clock_names[i + j]? = some n → u.name = some n := by
  intro l
  induction l with
  | nil => intro i prev j x h; simp at h
  | cons y rest ih =>
    intro i prev j x h
    cases j with
    | zero =>
      simp only [List.getElem?_cons_zero, Option.some.injEq] at h
      subst h
      refine ⟨channel_unit cmu (y % U32_SIZE) (read_clk_ch_name node i prev),
        by simp [channel_units], rfl, rfl, rfl, ?_⟩
      intro n hn
      simp only [Nat.add_zero] at hn
      simp [channel_unit, read_clk_ch_name, List.get?_eq_getElem?, hn]
    | succ j =>
      simp only [List.getElem?_cons_succ] at h
      obtain ⟨u, h1, h2, h3, h4, h5⟩ := ih (i + 1) (read_clk_ch_name node i prev) j x h
      refine ⟨u, by simpa [channel_units] using h1, h2, h3, h4, ?_⟩
      intro n hn
      exact h5 n (by rw [← hn]; congr 1; omega)

/-- Storing units does not change the size of the table. -/
theorem store_units_length (us : List baikal_clk_cmu) :
    ∀ (t : List (Option clk)), (store_units us t).length = t.length := by
  induction us with
  | nil => intro t; rfl
  | cons u rest ih =>
    intro t
    show (store_units rest (t.set u.cmu_id (some (clk.valid u)))).length = t.length
    rw [ih]; simp

/-- A slot whose index belongs to none of the units keeps its content. -/
theorem store_units_untouched (us : List baikal_clk_cmu) :
    ∀ (t : List (Option clk)) (i : Nat), (∀ u ∈ us, u.cmu_id ≠ i) →
      (store_units us t)[i]? = t[i]? := by
  induction us with
  | nil => intro t i _; rfl
  | cons u rest ih =>
    intro t i h
    show (store_units rest (t.set u.cmu_id (some (clk.valid u))))[i]? = t[i]?
    rw [ih _ _ (fun v hv => h v (by simp [hv]))]
    exact List.getElem?_set_ne (h u (by simp))

/-- A slot holds the unit stored last under its index. -/
theorem store_units_last (us : List baikal_clk_cmu) :
    ∀ (t : List (Option clk)) (j : Nat) (u : baikal_clk_cmu),
      us[j]? = some u → u.cmu_id < t.length →
      (∀ j' v, j < j' → us[j']? = some v → v.cmu_id ≠ u.cmu_id) →
      (store_units us t)[u.cmu_id]? = some (some (clk.valid u)) := by
  induction us with
  | nil => intro t j u h; simp at h
  | cons w rest ih =>
    intro t j u h hlt hlast
    show (store_units rest (t.set w.cmu_id (some (clk.valid w))))[u.cmu_id]? = _
    cases j with
    | zero =>
      simp only [List.getElem?_cons_zero, Option.some.injEq] at h
      subst h
      rw [store_units_untouched]
      · simp [hlt]
      · intro v hv
        obtain ⟨j', hj'⟩ := List.getElem?_of_mem hv
        exact hlast (j' + 1) v (by omega) (by simpa using hj')
    | succ j =>
      simp only [List.getElem?_cons_succ] at h
      apply ih _ j u h (by simpa using hlt)
      intro j' v hj hv
      exact hlast (j' + 1) v (by omega) (by simpa using hv)

/-- Every entry of the table was there before or is one of the stored units. -/
theorem store_units_entries (us : List baikal_clk_cmu) :
    ∀ (t : List (Option clk)) (c : Option clk), c ∈ store_units us t →
      c ∈ t ∨ ∃ u ∈ us, c = some (clk.valid u) := by
  induction us with
  | nil => intro t c h; exact Or.inl h
  | cons w rest ih =>
    intro t c h
    have h' : c ∈ store_units rest (t.set w.cmu_id (some (clk.valid w))) := h
    rcases ih _ _ h' with h1 | ⟨u, hu, hc⟩
    · rcases List.mem_or_eq_of_mem_set h1 with h2 | h2
      · exact Or.inl h2
      · exact Or.inr ⟨w, by simp, h2⟩
    · exact Or.inr ⟨u, by simp [hu], hc⟩

/-! ## The published table -/

/-- A result whose return value is zero is a return of zero in its final state. -/
theorem probe_returned_zero (r : probe_result) (h : r.returned = some 0) :
    r = .ret 0 r.state := by
  cases r with
  | ret rc s =>
    simp only [probe_result.returned, Option.some.injEq] at h
    subst h; rfl
  | crash f s => simp [probe_result.returned] at h

/-- The table published by a bring-up that returns zero, for a non-empty list of 32-bit
indices: its size is the largest index plus one, a slot whose index is not configured is
empty, a configured slot holds the channel built at the last position that names its
index, and nothing but channels is in the table.  A return of zero is possible only when
no index is larger than the last one listed. -/
theorem probe_ret_zero_table (k : kernel) (node : device_node) (s0 : probe_state)
    (l : List Nat) (hok : (baikal_clk_probe k node s0).returned = some 0)
    (hl : node.clock_indices = some l) (hne : l ≠ []) (h32 : ∀ i ∈ l, i < U32_SIZE) :
    ∃ t : List (Option clk),
      (baikal_clk_probe k node s0).state.provider
        = some (of_provider.onecell { clks := some t, clk_num := t.length }) ∧
      (∃ m ∈ l, (∀ i ∈ l, i ≤ m) ∧ t.length = m + 1) ∧
      (∀ (i : Nat), i < t.length → i ∉ l → t[i]? = some none) ∧
      (∀ (j i : Nat), l[j]? = some i → (∀ (j' : Nat), j < j' → l[j']? ≠ some i) →
        ∃ u, t[i]? = some (some (clk.valid u)) ∧ u.cmu_id = i ∧ u.is_clk_ch = 1 ∧
          u.parent = (pll_unit node).cmu_id ∧
          (∀ n, node.clock_names[j]? = some n → u.name = some n) ∧
          (channel_units node (pll_unit node) l 0 none)[j]? = some u) ∧
      (∀ c ∈ t, c = none ∨ ∃ u, c = some (clk.valid u) ∧ u.is_clk_ch = 1 ∧ u.cmu_id ∈ l) := by
  have hind : node.indices = l := by simp [device_node.indices, hl]
  obtain ⟨_, _, hlt, hprov⟩ :=
    probe_ret_zero k node s0 _ (probe_returned_zero _ hok)
  rw [hind] at hlt hprov
  rw [if_neg hne] at hprov
  have hmod : ∀ i ∈ l, i % U32_SIZE = i := fun i hi => Nat.mod_eq_of_lt (h32 i hi)
  -- every configured index lies below the table size
  have hbelow : ∀ i ∈ l, i < probe_clk_num l := by
    intro i hi
    obtain ⟨j, hj⟩ := List.getElem?_of_mem hi
    obtain ⟨u, hu, hid, _⟩ := channel_units_get node (pll_unit node) l 0 none j i hj
    have := hlt u (List.getElem?_mem hu)
    rw [hid, hmod i hi] at this
    exact this
  have hlen : (store_units (channel_units node (pll_unit node) l 0 none)
      (List.replicate (probe_clk_num l) none)).length = probe_clk_num l := by
    rw [store_units_length, List.length_replicate]
  refine ⟨store_units (channel_units node (pll_unit node) l 0 none)
    (List.replicate (probe_clk_num l) none), ?_, ?_, ?_, ?_, ?_⟩
  · rw [hprov, hlen]
  · refine ⟨l.getLast hne, List.getLast_mem hne, ?_, ?_⟩
    · intro i hi
      have h1 := hbelow i hi
      have h2 := hbelow _ (List.getLast_mem hne)
      rw [probe_clk_num_eq_last l hne, hmod _ (List.getLast_mem hne)] at h1 h2
      have h3 : l.getLast hne < U32_SIZE := h32 _ (List.getLast_mem hne)
      by_cases hw : l.getLast hne + 1 < U32_SIZE
      · rw [Nat.mod_eq_of_lt hw] at h1; omega
      · have : l.getLast hne + 1 = U32_SIZE := by omega
        rw [this, Nat.mod_self] at h2; omega
    · rw [hlen]
      have h2 := hbelow _ (List.getLast_mem hne)
      rw [probe_clk_num_eq_last l hne, hmod _ (List.getLast_mem hne)] at h2 ⊢
      have h3 : l.getLast hne < U32_SIZE := h32 _ (List.getLast_mem hne)
      by_cases hw : l.getLast hne + 1 < U32_SIZE
      · exact Nat.mod_eq_of_lt hw
      · have : l.getLast hne + 1 = U32_SIZE := by omega
        rw [this, Nat.mod_self] at h2; omega
  · intro i hi hnot
    rw [hlen] at hi
    rw [store_units_untouched]
    · simp [hi]
    · intro u hu heq
      obtain ⟨_, _, x, hx, hid⟩ := channel_units_kind node (pll_unit node) l 0 none u hu
      rw [hmod x hx] at hid
      exact hnot (by rw [← heq, hid]; exact hx)
  · intro j i hj hlast
    obtain ⟨u, hu, hid, hk, hp, hn⟩ := channel_units_get node (pll_unit node) l 0 none j i hj
    have hi : i ∈ l := List.getElem?_mem hj
    rw [hmod i hi] at hid
    refine ⟨u, ?_, hid, hk, hp, ?_, hu⟩
    · rw [← hid]
      apply store_units_last _ _ j u hu
      · rw [List.length_replicate, hid]; exact hbelow i hi
      · intro j' v hjj hv heq
        have hj' : j' < l.length := by
          obtain ⟨hlt', _⟩ := List.getElem?_eq_some_iff.mp hv
          rwa [channel_units_length] at hlt'
        obtain ⟨v', hv', hid', _⟩ := channel_units_get node (pll_unit node) l 0 none j'
          l[j'] (List.getElem?_eq_getElem hj')
        rw [hv] at hv'
        cases hv'
        rw [hmod _ (List.getElem_mem hj')] at hid'
        apply hlast j' hjj
        rw [List.getElem?_eq_getElem hj', ← hid', heq, hid]
    · intro n hn'
      exact hn n (by simpa using hn')
  · intro c hc
    rcases store_units_entries _ _ c hc with h1 | ⟨u, hu, hcu⟩
    · left; exact (List.eq_of_mem_replicate h1)
    · right
      obtain ⟨hk, _, x, hx, hid⟩ := channel_units_kind node (pll_unit node) l 0 none u hu
      rw [hmod x hx] at hid
      exact ⟨u, hcu, hk, by rw [hid]; exact hx⟩

/-- Every member of a list has a last position. -/
theorem last_occurrence (l : List Nat) (i : Nat) (h : i ∈ l) :
    ∃ j : Nat, l[j]? = some i ∧ ∀ (j' : Nat), j < j' → l[j']? ≠ some i := by
  induction l with
  | nil => simp at h
  | cons x rest ih =>
    by_cases hi : i ∈ rest
    · obtain ⟨j, hj, hlast⟩ := ih hi
      refine ⟨j + 1, by simpa using hj, ?_⟩
      intro j' hjj
      cases j' with
      | zero => omega
      | succ j' => simpa using hlast j' (by omega)
    · have hx : i = x := by
        rcases List.mem_cons.mp h with h1 | h1
        · exact h1
        · exact absurd h1 hi
      refine ⟨0, by simp [hx], ?_⟩
      intro j' hjj
      cases j' with
      | zero => omega
      | succ j' =>
        intro hc
        exact hi (List.getElem?_mem (by simpa using hc))

/-! ## A channel index configured twice -/

/-- C14, counterexample: with the channels uart at index 2 and spi at index 7, a
bring-up that returns zero publishes the indexed table of 8 slots holding the two
channels; the PLL is in no slot of the published table. -/
theorem published_table_lacks_the_pll :
    (baikal_clk_probe good_kernel (sys0_node [2, 7] ["uart", "spi"])
      probe_state.init).returned = some 0 ∧
    (baikal_clk_probe good_kernel (sys0_node [2, 7] ["uart", "spi"])
      probe_state.init).state.provider
      = some (of_provider.onecell
          { clks := some [none, none,
              some (clk.valid (channel_unit (pll_unit (sys0_node [2, 7] ["uart", "spi"])) 2
                (some "uart"))),
              none, none, none, none,
              some (clk.valid (channel_unit (pll_unit (sys0_node [2, 7] ["uart", "spi"])) 7
                (some "spi")))],
            clk_num := 8 }) ∧
    some (clk.valid (pll_unit (sys0_node [2, 7] ["uart", "spi"]))) ∉
      [none, none,
        some (clk.valid (channel_unit (pll_unit (sys0_node [2, 7] ["uart", "spi"])) 2
          (some "uart"))),
        none, none, none, none,
        some (clk.valid (channel_unit (pll_unit (sys0_node [2, 7] ["uart", "spi"])) 7
          (some "spi")))] := by
  refine ⟨rfl, rfl, ?_⟩
  simp [pll_unit, channel_unit]

/-- C15: in a bring-up that returns zero with N configured channel indices, enable is
requested once per clock, N + 1 times in all: the events are the registration of the
PLL, the enable of the PLL, and then for each channel in turn its registration followed
at once by its enable; the requests sent to the call gate are exactly these N + 1
enable requests, in the same order. -/
theorem enable_once_per_clock (k : kernel) (node : device_node) (s0 : probe_state)
    (hok : (baikal_clk_probe k node s0).returned = some 0) :
    ∃ us : List baikal_clk_cmu,
      us.length = node.indices.length ∧
      (pll_unit node).is_clk_ch = 0 ∧ (∀ u ∈ us, u.is_clk_ch = 1) ∧
      (baikal_clk_probe k node s0).state.events
        = s0.events
          ++ [probe_event.registered (pll_unit node) (clk.valid (pll_unit node)),
              probe_event.enabled (pll_unit node)]
          ++ us.flatMap (fun u => [probe_event.registered u (clk.valid u),
                                   probe_event.enabled u]) ∧
      (baikal_clk_probe k node s0).state.trace
        = s0.trace ++ enable_request (pll_unit node) :: us.map enable_request ∧
      (baikal_clk_probe k node s0).state.trace.length
        = s0.trace.length + (node.indices.length + 1) ∧
      (enable_request (pll_unit node)).a2 = CMU_PLL_ENABLE ∧
      (∀ u ∈ us, (enable_request u).a2 = CMU_CLK_CH_ENABLE) := by
  obtain ⟨htr, hev, _, _⟩ := probe_ret_zero k node s0 _ (probe_returned_zero _ hok)
  have hkind := channel_units_kind node (pll_unit node) node.indices 0 none
  refine ⟨channel_units node (pll_unit node) node.indices 0 none,
    channel_units_length _ _ _ _ _, rfl, fun u hu => (hkind u hu).1, ?_, htr, ?_, ?_, ?_⟩
  · rw [hev]; rfl
  · rw [htr]
    simp [channel_units_length]
  · simp [enable_request, pll_unit, CMU_PLL_ENABLE, U64_SIZE]
  · intro u hu
    simp [enable_request, (hkind u hu).1, CMU_CLK_CH_ENABLE, U64_SIZE]

/-- Witness for C15: PLL sys0 with the channels uart and spi, three enables in all. -/
theorem enable_once_per_clock_witness :
    (baikal_clk_probe good_kernel (sys0_node [2, 7] ["uart", "spi"])
      probe_state.init).returned = some 0 ∧
    (baikal_clk_probe good_kernel (sys0_node [2, 7] ["uart", "spi"])
      probe_state.init).state.trace.length = 3 ∧
    ∃ us : List baikal_clk_cmu,
      us.length = (sys0_node [2, 7] ["uart", "spi"]).indices.length ∧
      (baikal_clk_probe good_kernel (sys0_node [2, 7] ["uart", "spi"])
        probe_state.init).state.trace
        = probe_state.init.trace
          ++ enable_request (pll_unit (sys0_node [2, 7] ["uart", "spi"]))
            :: us.map enable_request :=
  ⟨rfl, rfl,
   (enable_once_per_clock good_kernel (sys0_node [2, 7] ["uart", "spi"]) probe_state.init
      rfl).elim fun us h => ⟨us, h.1, h.2.2.2.2.1⟩⟩

/-! ## Failures during bring-up -/

/-- C16: when the registration of the first channel fails (indices 2 and 7, PLL already
registered and enabled), bring-up returns no error: the error pointer is stored in the
table and handed on to clk_prepare_enable, where execution ends in a memory error.  The
same happens when the allocation of the array clk_ch->clks fails, which is not checked:
the first store into the array goes through a null pointer.  A failure of the PLL
registration, by contrast, is returned as an error. -/
theorem channel_registration_failure_is_not_returned :
    (baikal_clk_probe first_channel_register_fails (sys0_node [2, 7] ["uart", "spi"])
      probe_state.init).returned = none ∧
    (∃ s, baikal_clk_probe first_channel_register_fails (sys0_node [2, 7] ["uart", "spi"])
      probe_state.init = probe_result.crash fault.bad_pointer s ∧
      s.trace = [enable_request (pll_unit (sys0_node [2, 7] ["uart", "spi"]))]) ∧
    (baikal_clk_probe clks_alloc_fails (sys0_node [2, 7] ["uart", "spi"])
      probe_state.init).returned = none ∧
    (∃ s, baikal_clk_probe clks_alloc_fails (sys0_node [2, 7] ["uart", "spi"])
      probe_state.init = probe_result.crash fault.null_deref s) ∧
    (baikal_clk_probe pll_register_fails (sys0_node [2, 7] ["uart", "spi"])
      probe_state.init).returned = some (-ENOMEM) ∧
    (baikal_clk_probe pll_register_fails (sys0_node [2, 7] ["uart", "spi"])
      probe_state.init).state.provider = none :=
  ⟨rfl, ⟨_, rfl, rfl⟩, rfl, ⟨_, rfl⟩, rfl, rfl⟩

/-! ## One loop iteration in general, and the events of the framework calls -/

/-- When allocation and registration succeed and every index lies within the arrays, the
registration loop runs to its end. -/
theorem probe_channels_succeeds (k : kernel) (node : device_node) (cmu : baikal_clk_cmu)
    (halloc : ∀ n, k.alloc_ok n = true) (hreg : ∀ n, k.clk_register_ok n = true) :
    ∀ (rest : List Nat) (st : ch_loop) (t : List (Option clk)),
      st.clks = some t → (∀ x ∈ rest, x % U32_SIZE < st.cmu_ch.length) →
      ∃ st', probe_channels k node cmu rest st = .ok st' := by
  intro rest
  induction rest with
  | nil => intro st t _ _; exact ⟨st, rfl⟩
  | cons u rest ih =>
    intro st t hc hfit
    rw [probe_channels_step k node cmu u rest st t _ _ _ _ hc rfl rfl rfl rfl]
    have h1 : ¬ st.cmu_ch.length ≤ u % U32_SIZE := by
      have := hfit u (by simp)
      omega
    have h2 : ¬ (kalloc k st.s).1 = false := by simp [kalloc, halloc]
    rw [if_neg h1, if_neg h2]
    have hval : (clk_register k
        (channel_unit cmu (u % U32_SIZE) (read_clk_ch_name node st.i st.clk_ch_name))
        (kalloc k st.s).2).1 = clk.valid
        (channel_unit cmu (u % U32_SIZE) (read_clk_ch_name node st.i st.clk_ch_name)) := by
      simp [clk_register, hreg]
    rw [hval]
    simp only [clk_prepare_enable]
    apply ih _ _ rfl
    intro x hx
    simpa using hfit x (by simp [hx])

/-- When every allocation and registration succeeds, the provider registry accepts the
provider, and every configured index lies within the table, bring-up returns zero. -/
theorem probe_succeeds (k : kernel) (node : device_node) (s0 : probe_state)
    (halloc : ∀ n, k.alloc_ok n = true) (hreg : ∀ n, k.clk_register_ok n = true)
    (hadd : k.add_provider_rc = 0)
    (hfit : ∀ x ∈ node.indices, x % U32_SIZE < probe_clk_num node.indices) :
    (baikal_clk_probe k node s0).returned = some 0 := by
  have hk : ∀ s, (kalloc k s).1 = true := fun s => by simp [kalloc, halloc]
  have hr : ∀ u s, (clk_register k u s).1 = clk.valid u := fun u s => by
    simp [clk_register, hreg]
  have hp : ∀ p s, (of_clk_add_provider k p s).1 = 0 := fun p s => by
    simp [of_clk_add_provider, hadd]
  unfold baikal_clk_probe
  simp only [hk, hr, IS_ERR, clk_prepare_enable, Bool.not_true, Bool.false_eq_true,
    if_false, if_true]
  cases hidx : node.clock_indices with
  | none => simp [hp, probe_result.returned]
  | some l =>
    cases l with
    | nil => simp [hp, probe_result.returned]
    | cons u us =>
      have hind : node.indices = u :: us := by simp [device_node.indices, hidx]
      rw [hind] at hfit
      have key : ∀ (cmu : baikal_clk_cmu) (s : probe_state) (o : Except probe_result ch_loop),
          probe_channels k node cmu (u :: us)
            { i := 0, clk_ch_name := none,
              cmu_ch := List.replicate (probe_clk_num (u :: us)) none,
              clks := some (List.replicate (probe_clk_num (u :: us)) none), s := s } = o →
          ∃ st', o = .ok st' := by
        intro cmu s o ho
        obtain ⟨st', hst⟩ := probe_channels_succeeds k node cmu halloc hreg (u :: us)
          { i := 0, clk_ch_name := none,
            cmu_ch := List.replicate (probe_clk_num (u :: us)) none,
            clks := some (List.replicate (probe_clk_num (u :: us)) none), s := s }
          _ rfl (by simpa using hfit)
        exact ⟨st', ho.symm.trans hst⟩
      simp only []
      split
      · rename_i res hres
        obtain ⟨st', hst⟩ := key _ _ _ hres
        cases hst
      · simp [hp, probe_result.returned]

/-! ## An index larger than the last one listed -/

/-- C14, amended: let every kernel service succeed and let every configured index be a
32-bit value within the table, whose size is the index listed last plus one.  Then
bring-up returns zero.  With no channel index configured it publishes exactly one clock, the PLL,
as a single-clock provider.  With channel indices configured it publishes the indexed
table, in which every configured index has its slot filled with its channel and every
filled slot holds a channel of a configured index; the PLL is not in the table. -/
theorem provider_is_pll_alone_or_channel_table (k : kernel) (node : device_node)
    (s0 : probe_state)
    (halloc : ∀ n, k.alloc_ok n = true) (hreg : ∀ n, k.clk_register_ok n = true)
    (hadd : k.add_provider_rc = 0)
    (h32 : ∀ i ∈ node.indices, i < U32_SIZE)
    (hfit : ∀ i ∈ node.indices, i < probe_clk_num node.indices) :
    (baikal_clk_probe k node s0).returned = some 0 ∧
    (node.indices = [] →
      (baikal_clk_probe k node s0).state.provider
        = some (of_provider.simple (clk.valid (pll_unit node)))) ∧
    (node.indices ≠ [] →
      ∃ t : List (Option clk),
        (baikal_clk_probe k node s0).state.provider
          = some (of_provider.onecell { clks := some t, clk_num := t.length }) ∧
        (∀ i ∈ node.indices, ∃ u, t[i]? = some (some (clk.valid u)) ∧ u.cmu_id = i ∧
          u.is_clk_ch = 1) ∧
        (∀ c ∈ t, c = none ∨
          ∃ u, c = some (clk.valid u) ∧ u.is_clk_ch = 1 ∧ u.cmu_id ∈ node.indices) ∧
        some (clk.valid (pll_unit node)) ∉ t) := by
  have hok : (baikal_clk_probe k node s0).returned = some 0 := by
    apply probe_succeeds k node s0 halloc hreg hadd
    intro x hx
    rw [Nat.mod_eq_of_lt (h32 x hx)]
    exact hfit x hx
  refine ⟨hok, ?_, ?_⟩
  · intro hnil
    obtain ⟨_, _, _, hprov⟩ := probe_ret_zero k node s0 _ (probe_returned_zero _ hok)
    rw [hprov, if_pos hnil]
  · intro hne
    cases hidx : node.clock_indices with
    | none => exact absurd (by simp [device_node.indices, hidx]) hne
    | some l =>
      have hind : node.indices = l := by simp [device_node.indices, hidx]
      rw [hind] at hne h32 ⊢
      obtain ⟨t, p1, _, _, p4, p5⟩ := probe_ret_zero_table k node s0 l hok hidx hne h32
      refine ⟨t, p1, ?_, p5, ?_⟩
      · intro i hi
        obtain ⟨j, hj, hlast⟩ := last_occurrence l i hi
        obtain ⟨u, q1, q2, q3, _⟩ := p4 j i hj hlast
        exact ⟨u, q1, q2, q3⟩
      · intro hmem
        rcases p5 _ hmem with h | ⟨u, hu, hk, _⟩
        · simp at h
        · have : pll_unit node = u := clk.valid.inj (Option.some.inj hu)
          rw [← this] at hk
          simp [pll_unit] at hk

/-- Witness for C14, amended: PLL sys0 with the channels uart at index 2 and spi at
index 7. -/
theorem provider_is_pll_alone_or_channel_table_witness :
    (baikal_clk_probe good_kernel (sys0_node [2, 7] ["uart", "spi"])
      probe_state.init).returned = some 0 ∧
    ((sys0_node [2, 7] ["uart", "spi"]).indices = [] →
      (baikal_clk_probe good_kernel (sys0_node [2, 7] ["uart", "spi"])
        probe_state.init).state.provider
        = some (of_provider.simple (clk.valid (pll_unit (sys0_node [2, 7] ["uart", "spi"]))))) ∧
    ((sys0_node [2, 7] ["uart", "spi"]).indices ≠ [] →
      ∃ t : List (Option clk),
        (baikal_clk_probe good_kernel (sys0_node [2, 7] ["uart", "spi"])
          probe_state.init).state.provider
          = some (of_provider.onecell { clks := some t, clk_num := t.length }) ∧
        (∀ i ∈ (sys0_node [2, 7] ["uart", "spi"]).indices,
          ∃ u, t[i]? = some (some (clk.valid u)) ∧ u.cmu_id = i ∧ u.is_clk_ch = 1) ∧
        (∀ c ∈ t, c = none ∨
          ∃ u, c = some (clk.valid u) ∧ u.is_clk_ch = 1 ∧
            u.cmu_id ∈ (sys0_node [2, 7] ["uart", "spi"]).indices) ∧
        some (clk.valid (pll_unit (sys0_node [2, 7] ["uart", "spi"]))) ∉ t) :=
  provider_is_pll_alone_or_channel_table good_kernel (sys0_node [2, 7] ["uart", "spi"])
    probe_state.init (fun _ => rfl) (fun _ => rfl) rfl (by decide) (by decide)

/-! ## The units that bring-up constructs, in order -/

end Baikal
